import Mathlib

/-!
Verification of the file-intake-and-recognition pipeline of the
image-to-text converter (`src/pages/Index.tsx`).

The pipeline is embedded shallowly:
* component-local React state becomes the record `PipelineState`;
* browser object URLs become a `Resources` ledger tracking allocation and
  revocation counts (`URL.createObjectURL` / `URL.revokeObjectURL`);
* the asynchronous Tesseract call becomes a pure function of the engine's
  behaviour, given as a list of status events plus a final outcome;
* `Math.round` on the engine's fractional progress becomes `jsRound` on ℚ;
* `String.prototype.split(/\s+/)` becomes `jsSplitWs`.
-/

namespace OcrPipeline

/-- A candidate input file: declared media type, byte size, display name
(the fields of the browser `File` value read by `handleFile`). -/
structure InputFile where
  type : String
  size : Nat
  name : String
deriving DecidableEq, Repr

/-- Ledger for browser object URLs.  `URL.createObjectURL` hands out a fresh
identifier and records the acquisition; `URL.revokeObjectURL` releases a live
identifier and is a no-op on an identifier that is not live (the platform's
double-release semantics). -/
structure Resources where
  nextId : Nat
  live : List Nat
  acquired : Nat
  released : Nat
deriving DecidableEq, Repr

/-- Model of `URL.createObjectURL`: allocate a fresh object-URL identifier. -/
def createObjectURL (r : Resources) : Nat × Resources :=
  (r.nextId,
   { nextId := r.nextId + 1
     live := r.nextId :: r.live
     acquired := r.acquired + 1
     released := r.released })

/-- Model of `URL.revokeObjectURL`: release a live identifier; releasing an identifier
that is not live is a safe no-op. -/
def revokeObjectURL (r : Resources) (u : Nat) : Resources :=
  if u ∈ r.live then
    { r with live := r.live.erase u, released := r.released + 1 }
  else r

/-- The component-local state of `Index`: `file`, `previewUrl` (`none` models
the initial empty string), `extractedText`, `isProcessing`, `language`,
`progress`, plus the object-URL ledger. -/
structure PipelineState where
  file : Option InputFile
  previewUrl : Option Nat
  extractedText : String
  isProcessing : Bool
  language : String
  progress : Int
  resources : Resources
deriving DecidableEq, Repr

/-- The initial state of the component (`useState` initialisers). -/
def initState : PipelineState :=
  { file := none
    previewUrl := none
    extractedText := ""
    isProcessing := false
    language := "eng"
    progress := 0
    resources := { nextId := 0, live := [], acquired := 0, released := 0 } }

/-- Outcome of running `handleFile` on a candidate file. -/
inductive ValidationResult where
  | accepted
  | unsupportedType
  | tooLarge
deriving DecidableEq, Repr

/-- The media types accepted by `handleFile` (`validTypes` in the source). -/
def validTypes : List String :=
  ["image/jpeg", "image/jpg", "image/png", "application/pdf"]

/-- Model of `handleFile(selectedFile)`: reject on type or size (leaving all state
unchanged), otherwise set the file, allocate a preview object URL, and clear
the extracted text.  The previous preview URL, if any, is overwritten without
being revoked, exactly as in the source. -/
def handleFile (st : PipelineState) (selectedFile : InputFile) :
    PipelineState × ValidationResult :=
  if selectedFile.type ∉ validTypes then
    (st, .unsupportedType)
  else if selectedFile.size > 10 * 1024 * 1024 then
    (st, .tooLarge)
  else
    let (url, res) := createObjectURL st.resources
    ({ st with
        file := some selectedFile
        previewUrl := some url
        extractedText := ""
        resources := res },
     .accepted)

/-- A status event emitted by the recognition engine's logger: a status
string and a fractional completion (a rational stands in for the JS float). -/
structure EngineEvent where
  status : String
  progress : ℚ

/-- How the engine call settles: success with the recognised text
(`result.data.text`) or failure (the promise rejects). -/
inductive EngineOutcome where
  | success (text : String)
  | failure

/-- Model of `Math.round` as applied to the rational model of a JS number:
round half toward positive infinity. -/
def jsRound (q : ℚ) : Int := ⌊q + 1 / 2⌋

/-- The logger callback passed to `Tesseract.recognize`: on a
"recognizing text" event set `progress` to `Math.round(m.progress * 100)`;
any other event leaves the state untouched. -/
def loggerStep (st : PipelineState) (m : EngineEvent) : PipelineState :=
  if m.status = "recognizing text" then
    { st with progress := jsRound (m.progress * 100) }
  else st

/-- The sequence of progress values published by the logger during one call:
one value per "recognizing text" event, in order. -/
def publishedProgress (events : List EngineEvent) : List Int :=
  (events.filter (fun m => m.status == "recognizing text")).map
    (fun m => jsRound (m.progress * 100))

/-- Model of `extractText()`: return immediately when no file is selected; otherwise
set processing, reset progress, clear the text, run the engine (its logger
events in order, then its outcome), and in the `finally` block clear
processing and reset progress. -/
def extractText (st : PipelineState) (events : List EngineEvent)
    (outcome : EngineOutcome) : PipelineState :=
  match st.file with
  | none => st
  | some _ =>
    let st1 := { st with isProcessing := true, progress := 0, extractedText := "" }
    let st2 := events.foldl loggerStep st1
    let st3 :=
      match outcome with
      | .success text => { st2 with extractedText := text }
      | .failure => st2
    { st3 with isProcessing := false, progress := 0 }

/-- Outcome signal of `copyToClipboard`. -/
inductive CopyResult where
  | noop
  | copied
  | copyFailed
deriving DecidableEq, Repr

/-- Model of `copyToClipboard()`: a no-op when the text is empty; otherwise write the
text to the clipboard, or report a failure when the platform denies access.
Returns the (unchanged) pipeline state, the clipboard contents after the
call, and the outcome signal. -/
def copyToClipboard (st : PipelineState) (clipboardAllowed : Bool)
    (clipboard : String) : PipelineState × String × CopyResult :=
  if st.extractedText = "" then (st, clipboard, .noop)
  else if clipboardAllowed then (st, st.extractedText, .copied)
  else (st, clipboard, .copyFailed)

/-- The file handed to the save boundary by `downloadText`. -/
structure DownloadedBlob where
  content : String
  mime : String
  filename : String
deriving DecidableEq, Repr

/-- Model of `downloadText()`: a no-op when the text is empty; otherwise build a
`text/plain` blob of the text, allocate an object URL for it, trigger the
save under `extracted-text-<Date.now()>.txt`, and revoke the URL.  `now` is
the millisecond timestamp `Date.now()` returns. -/
def downloadText (st : PipelineState) (now : Nat) :
    PipelineState × Option DownloadedBlob :=
  if st.extractedText = "" then (st, none)
  else
    let (url, r1) := createObjectURL st.resources
    let r2 := revokeObjectURL r1 url
    ({ st with resources := r2 },
     some { content := st.extractedText
            mime := "text/plain"
            filename := "extracted-text-" ++ toString now ++ ".txt" })

/-- A direct user edit of the text area (`onChange` handler). -/
def userEdit (st : PipelineState) (text : String) : PipelineState :=
  { st with extractedText := text }

/-- The whitespace class matched by the regular expression `\s` (the ASCII
core: space, tab, line feed, vertical tab, form feed, carriage return). -/
def isWs (c : Char) : Bool :=
  c == ' ' || c == '\t' || c == '\n' || c == '\x0b' || c == '\x0c' || c == '\r'

mutual

/-- Splitting on `/\s+/`, mid-token: `cur` holds the reversed characters of
the field being built; a whitespace character closes the field. -/
def splitAux (cur : List Char) : List Char → List (List Char)
  | [] => [cur.reverse]
  | c :: cs => if isWs c then cur.reverse :: splitSkip cs else splitAux (c :: cur) cs

/-- Splitting on `/\s+/`, inside a whitespace run: further whitespace is
absorbed into the same separator; the end of input yields the empty trailing
field JS produces after a final separator. -/
def splitSkip : List Char → List (List Char)
  | [] => [[]]
  | c :: cs => if isWs c then splitSkip cs else splitAux [c] cs

end

/-- Model of `s.split(/\s+/)`: the fields between maximal whitespace runs, including
the empty leading (trailing) field when `s` starts (ends) with whitespace,
and `[""]` for the empty string. -/
def jsSplitWs (s : String) : List String :=
  (splitAux [] s.data).map String.mk

/-- The displayed word count: `extractedText.split(/\s+/).length`. -/
def wordCount (s : String) : Nat := (jsSplitWs s).length

/-- The displayed character count: `extractedText.length`. -/
def charCount (s : String) : Nat := s.length

/-- The metrics line rendered under the text area: shown only when the text
is non-empty, as the pair (word count, character count). -/
def displayedMetrics (st : PipelineState) : Option (Nat × Nat) :=
  if st.extractedText = "" then none
  else some (wordCount st.extractedText, charCount st.extractedText)

/-- Modelled from the spec: the word count the spec describes, the number of
whitespace-delimited NON-EMPTY tokens of the string. -/
def specWordCount (s : String) : Nat :=
  ((jsSplitWs s).filter (fun t => t ≠ "")).length

/-- A sample 5-byte PNG candidate. -/
def samplePng : InputFile := { type := "image/png", size := 5, name := "a.png" }

/-- A second sample PNG candidate. -/
def samplePng2 : InputFile := { type := "image/png", size := 7, name := "b.png" }

/-- A sample candidate with the non-canonical JPEG media type string. -/
def sampleJpg : InputFile := { type := "image/jpg", size := 5, name := "c.jpg" }

/-- The state after accepting `samplePng` from the initial state. -/
def stAfterPng : PipelineState := (handleFile initState samplePng).1

/-- The state after a successful extraction left the text "hello". -/
def stAfterSuccess : PipelineState := extractText stAfterPng [] (.success "hello")

/-- The logger callback changes only the `progress` field, so a fold of the
logger over any event list preserves `extractedText`. -/
theorem foldl_logger_extractedText (events : List EngineEvent) :
    ∀ st : PipelineState,
      (events.foldl loggerStep st).extractedText = st.extractedText := by
  induction events with
  | nil => intro st; rfl
  | cons e es ih =>
    intro st
    rw [List.foldl_cons, ih]
    unfold loggerStep
    split <;> rfl

/-- Claim C10: when no artifact is accepted (`file` is `null`), triggering the
extract operation returns immediately and no pipeline state changes. -/
theorem C10_extract_without_file_is_noop (st : PipelineState)
    (events : List EngineEvent) (outcome : EngineOutcome)
    (h : st.file = none) :
    extractText st events outcome = st := by
  unfold extractText
  rw [h]

/-- Witness for C10 at the initial state. -/
theorem C10_extract_without_file_is_noop_witness :
    initState.file = none ∧ extractText initState [] .failure = initState :=
  ⟨rfl, C10_extract_without_file_is_noop initState [] .failure rfl⟩

/-- Claim C7: whenever a file is selected, after the extract operation
settles — success or failure, whatever the engine's events — progress is
reset to 0 and the processing status is cleared. -/
theorem C7_settle_resets_progress_and_processing (st : PipelineState)
    (f : InputFile) (events : List EngineEvent) (outcome : EngineOutcome)
    (h : st.file = some f) :
    (extractText st events outcome).progress = 0 ∧
    (extractText st events outcome).isProcessing = false := by
  unfold extractText
  rw [h]
  cases outcome <;> exact ⟨rfl, rfl⟩

/-- Witness for C7: a failing extraction from the post-acceptance state. -/
theorem C7_settle_resets_progress_and_processing_witness :
    stAfterPng.file = some samplePng ∧
    (extractText stAfterPng [] .failure).progress = 0 ∧
    (extractText stAfterPng [] .failure).isProcessing = false := by
  refine ⟨by decide, ?_⟩
  exact C7_settle_resets_progress_and_processing stAfterPng samplePng []
    .failure (by decide)

/-- Claim C4: on engine success with text `s`, the settled state's
ExtractedText is exactly `s` — no trimming or normalisation. -/
theorem C4_success_sets_text_verbatim (st : PipelineState) (f : InputFile)
    (events : List EngineEvent) (s : String) (h : st.file = some f) :
    (extractText st events (.success s)).extractedText = s := by
  unfold extractText
  rw [h]

/-- Witness for C4: a successful extraction returning text with internal
whitespace and a trailing newline stores it untouched. -/
theorem C4_success_sets_text_verbatim_witness :
    stAfterPng.file = some samplePng ∧
    (extractText stAfterPng
        [{ status := "recognizing text", progress := 1 / 2 }]
        (.success "  a \n")).extractedText = "  a \n" :=
  ⟨by decide,
   C4_success_sets_text_verbatim stAfterPng samplePng
     [{ status := "recognizing text", progress := 1 / 2 }] "  a \n" (by decide)⟩

/-- Counterexample to C1: after a prior success left ExtractedText = "hello",
a re-extraction whose engine call fails leaves ExtractedText empty, not
"hello" — `extractText` clears the buffer before invoking the engine. -/
theorem C1_counterexample :
    stAfterSuccess.extractedText = "hello" ∧
    (extractText stAfterSuccess [] .failure).extractedText = "" ∧
    ("" : String) ≠ "hello" := by
  refine ⟨rfl, rfl, by decide⟩

/-- Claim C1 as amended: a failed re-extraction leaves ExtractedText empty
(the extract operation clears the buffer at invocation start), so the prior
text survives only when it was already empty. -/
theorem C1_failed_extraction_leaves_text_empty (st : PipelineState)
    (f : InputFile) (events : List EngineEvent) (h : st.file = some f) :
    (extractText st events .failure).extractedText = "" := by
  unfold extractText
  rw [h]
  exact foldl_logger_extractedText events _

/-- Witness for the amended C1 at the post-success state. -/
theorem C1_failed_extraction_leaves_text_empty_witness :
    stAfterSuccess.file = some samplePng ∧
    (extractText stAfterSuccess [] .failure).extractedText = "" :=
  ⟨by decide,
   C1_failed_extraction_leaves_text_empty stAfterSuccess samplePng [] (by decide)⟩

/-- Claim C2 at its failing input: accept `samplePng`, edit the text, then
accept `samplePng2`.  The second acceptance clears the text, but the first
preview's object URL is never revoked: two acquisitions, zero releases —
the code drops the old URL without `URL.revokeObjectURL`. -/
theorem C2_previous_preview_never_released :
    stAfterPng.resources.acquired = 1 ∧
    stAfterPng.resources.released = 0 ∧
    (userEdit stAfterPng "prev").extractedText = "prev" ∧
    ((handleFile (userEdit stAfterPng "prev") samplePng2).1.extractedText = "") ∧
    ((handleFile (userEdit stAfterPng "prev") samplePng2).1.resources.acquired = 2) ∧
    ((handleFile (userEdit stAfterPng "prev") samplePng2).1.resources.released = 0) := by
  refine ⟨rfl, rfl, rfl, rfl, rfl, rfl⟩

/-- Counterexample to C3: the media type "image/jpg" is outside the spec's
set {image/jpeg, image/png, application/pdf}, yet `handleFile` accepts it —
the source's accepted list also contains "image/jpg". -/
theorem C3_counterexample :
    sampleJpg.type ∉ ["image/jpeg", "image/png", "application/pdf"] ∧
    (handleFile initState sampleJpg).2 = .accepted := by
  refine ⟨by decide, rfl⟩

/-- Claim C3 as amended: the accepted media-type set is {image/jpeg,
image/jpg, image/png, application/pdf}; a candidate outside it is rejected
with unsupported-type and no state change, and a candidate inside it is
never rejected by the type rule. -/
theorem C3_type_rule (st : PipelineState) (f : InputFile) :
    (f.type ∉ validTypes → handleFile st f = (st, .unsupportedType)) ∧
    (f.type ∈ validTypes → (handleFile st f).2 ≠ .unsupportedType) := by
  constructor
  · intro hty
    unfold handleFile
    rw [if_pos hty]
  · intro hty
    unfold handleFile
    rw [if_neg (not_not.mpr hty)]
    by_cases hsz : f.size > 10 * 1024 * 1024
    · rw [if_pos hsz]
      exact fun hcon => ValidationResult.noConfusion hcon
    · rw [if_neg hsz]
      exact fun hcon => ValidationResult.noConfusion hcon

/-- Witness for the amended C3: a text file is rejected with no state
change; `samplePng` is not rejected by the type rule. -/
theorem C3_type_rule_witness :
    handleFile initState { type := "text/plain", size := 5, name := "t.txt" } =
      (initState, .unsupportedType) ∧
    (handleFile initState samplePng).2 ≠ .unsupportedType :=
  ⟨(C3_type_rule initState { type := "text/plain", size := 5, name := "t.txt" }).1
     (by decide),
   (C3_type_rule initState samplePng).2 (by decide)⟩

/-- Claim C6: the rules run type-first.  A type-valid candidate larger than
10,485,760 bytes is rejected as too-large with no state change; a type-valid
candidate of at most 10,485,760 bytes is accepted; a candidate failing the
type rule is rejected as unsupported-type regardless of size. -/
theorem C6_size_rule_order (st : PipelineState) (f : InputFile) :
    (f.type ∈ validTypes → 10485760 < f.size →
      handleFile st f = (st, .tooLarge)) ∧
    (f.type ∈ validTypes → f.size ≤ 10485760 →
      (handleFile st f).2 = .accepted) ∧
    (f.type ∉ validTypes → handleFile st f = (st, .unsupportedType)) := by
  refine ⟨?_, ?_, ?_⟩
  · intro hty hsz
    unfold handleFile
    rw [if_neg (not_not.mpr hty), if_pos (by omega)]
  · intro hty hsz
    unfold handleFile
    rw [if_neg (not_not.mpr hty), if_neg (by omega)]
  · intro hty
    unfold handleFile
    rw [if_pos hty]

/-- Witness for C6: an oversized PNG is rejected too-large, `samplePng` is
accepted, and an oversized text file is rejected unsupported-type. -/
theorem C6_size_rule_order_witness :
    handleFile initState { type := "image/png", size := 10485761, name := "big.png" } =
      (initState, .tooLarge) ∧
    (handleFile initState samplePng).2 = .accepted ∧
    handleFile initState { type := "text/plain", size := 10485761, name := "big.txt" } =
      (initState, .unsupportedType) :=
  ⟨(C6_size_rule_order initState
      { type := "image/png", size := 10485761, name := "big.png" }).1
      (by decide) (by decide),
   (C6_size_rule_order initState samplePng).2.1 (by decide) (by decide),
   (C6_size_rule_order initState
      { type := "text/plain", size := 10485761, name := "big.txt" }).2.2
      (by decide)⟩

/-- Claim C8: with an empty buffer both export operations are no-ops; with a
non-empty buffer, copy writes the buffer verbatim to the clipboard when the
platform allows it, reports a copy failure without altering the buffer or the
clipboard when the platform denies it, and download yields a text/plain blob
named with the millisecond timestamp whose content is exactly the buffer. -/
theorem C8_export_operations (st : PipelineState) (clipboard : String)
    (now : Nat) :
    (st.extractedText = "" →
      copyToClipboard st true clipboard = (st, clipboard, .noop) ∧
      copyToClipboard st false clipboard = (st, clipboard, .noop) ∧
      downloadText st now = (st, none)) ∧
    (st.extractedText ≠ "" →
      copyToClipboard st true clipboard = (st, st.extractedText, .copied) ∧
      copyToClipboard st false clipboard = (st, clipboard, .copyFailed) ∧
      (downloadText st now).2 =
        some { content := st.extractedText
               mime := "text/plain"
               filename := "extracted-text-" ++ toString now ++ ".txt" } ∧
      (downloadText st now).1.extractedText = st.extractedText) := by
  constructor
  · intro h
    refine ⟨?_, ?_, ?_⟩ <;>
      simp only [copyToClipboard, downloadText, if_pos h]
  · intro h
    refine ⟨?_, ?_, ?_, ?_⟩
    · simp only [copyToClipboard, if_neg h, if_pos]
    · simp only [copyToClipboard, if_neg h]
      rfl
    · simp only [downloadText, if_neg h]
    · simp only [downloadText, if_neg h]

/-- Witness for C8: the empty initial buffer makes download a no-op, and the
buffer "hello world" is copied verbatim. -/
theorem C8_export_operations_witness :
    downloadText initState 0 = (initState, none) ∧
    copyToClipboard (userEdit initState "hello world") true "" =
      (userEdit initState "hello world", "hello world", .copied) :=
  ⟨((C8_export_operations initState "" 0).1 rfl).2.2,
   ((C8_export_operations (userEdit initState "hello world") "" 0).2
      (by decide)).1⟩

/-- Rounding in the JS model is monotone. -/
theorem jsRound_mono {p q : ℚ} (h : p ≤ q) : jsRound p ≤ jsRound q := by
  unfold jsRound
  exact Int.floor_le_floor (by linarith)

/-- A fractional completion in [0, 1] rounds to a percentage in [0, 100]. -/
theorem jsRound_percent_bounds {p : ℚ} (h0 : 0 ≤ p) (h1 : p ≤ 1) :
    0 ≤ jsRound (p * 100) ∧ jsRound (p * 100) ≤ 100 := by
  constructor
  · exact Int.le_floor.mpr (by push_cast; linarith)
  · have hlt : jsRound (p * 100) < 101 := by
      unfold jsRound
      exact Int.floor_lt.mpr (by push_cast; linarith)
    omega

/-- Claim C5: only "recognizing text" events update the published progress;
such an event publishes round(p * 100); every published value lies in
[0, 100] when the engine's fractions lie in [0, 1]; and when the engine's
fractions are non-decreasing the published sequence is non-decreasing. -/
theorem C5_progress_publishing (st : PipelineState) (m : EngineEvent)
    (events : List EngineEvent) :
    (m.status ≠ "recognizing text" → loggerStep st m = st) ∧
    (m.status = "recognizing text" →
      (loggerStep st m).progress = jsRound (m.progress * 100)) ∧
    ((∀ e ∈ events.filter (fun e => e.status == "recognizing text"),
        0 ≤ e.progress ∧ e.progress ≤ 1) →
      ∀ v ∈ publishedProgress events, 0 ≤ v ∧ v ≤ 100) ∧
    (List.Chain' (fun a b => a.progress ≤ b.progress)
        (events.filter (fun e => e.status == "recognizing text")) →
      List.Chain' (fun a b => a ≤ b) (publishedProgress events)) := by
  refine ⟨?_, ?_, ?_, ?_⟩
  · intro h
    unfold loggerStep
    rw [if_neg h]
  · intro h
    unfold loggerStep
    rw [if_pos h]
  · intro hb v hv
    unfold publishedProgress at hv
    rcases List.mem_map.mp hv with ⟨e, he, rfl⟩
    exact jsRound_percent_bounds (hb e he).1 (hb e he).2
  · intro hc
    unfold publishedProgress
    rw [List.chain'_map]
    exact List.Chain'.imp
      (fun a b hab => jsRound_mono (by linarith)) hc

/-- A concrete engine event stream: one loading event followed by three
ordered recognizing events. -/
def sampleEvents : List EngineEvent :=
  [{ status := "loading tesseract", progress := 0 },
   { status := "recognizing text", progress := 1 / 10 },
   { status := "recognizing text", progress := 1 / 2 },
   { status := "recognizing text", progress := 1 }]

/-- Witness for C5: a loading event is ignored, a recognizing event at 1/2
publishes round(50), and the published sequence of a concrete ordered event
stream is bounded and non-decreasing. -/
theorem C5_progress_publishing_witness :
    loggerStep initState { status := "loading tesseract", progress := 1 / 2 } =
      initState ∧
    (loggerStep initState
        { status := "recognizing text", progress := 1 / 2 }).progress =
      jsRound (1 / 2 * 100) ∧
    (∀ v ∈ publishedProgress sampleEvents, 0 ≤ v ∧ v ≤ 100) ∧
    List.Chain' (fun a b => a ≤ b) (publishedProgress sampleEvents) :=
  ⟨(C5_progress_publishing initState
      { status := "loading tesseract", progress := 1 / 2 } []).1 (by decide),
   (C5_progress_publishing initState
      { status := "recognizing text", progress := 1 / 2 } []).2.1 rfl,
   (C5_progress_publishing initState
      { status := "recognizing text", progress := 1 / 2 } sampleEvents).2.2.1
     (by
       have hf : sampleEvents.filter (fun e => e.status == "recognizing text") =
           [{ status := "recognizing text", progress := 1 / 10 },
            { status := "recognizing text", progress := 1 / 2 },
            { status := "recognizing text", progress := 1 }] := rfl
       rw [hf]
       intro e he
       simp only [List.mem_cons, List.not_mem_nil, or_false] at he
       rcases he with rfl | rfl | rfl
       · norm_num
       · norm_num
       · norm_num),
   (C5_progress_publishing initState
      { status := "recognizing text", progress := 1 / 2 } sampleEvents).2.2.2
     (by
       have hf : sampleEvents.filter (fun e => e.status == "recognizing text") =
           [{ status := "recognizing text", progress := 1 / 10 },
            { status := "recognizing text", progress := 1 / 2 },
            { status := "recognizing text", progress := 1 }] := rfl
       rw [hf]
       norm_num [List.chain'_cons, List.chain'_singleton])⟩

/-- A list whose last element is not whitespace keeps that property when its
head is dropped. -/
theorem lastNotWs_tail {c : Char} {cs : List Char}
    (h : ∀ d, (c :: cs).getLast? = some d → isWs d = false) :
    ∀ d, cs.getLast? = some d → isWs d = false := by
  intro d hd
  apply h
  cases cs with
  | nil => simp at hd
  | cons e es => simpa [List.getLast?_cons_cons] using hd

/-- A list headed by a whitespace character but ending in non-whitespace has
a non-empty tail. -/
theorem tail_ne_nil_of_ws_head {c : Char} {cs : List Char} (hw : isWs c = true)
    (h : ∀ d, (c :: cs).getLast? = some d → isWs d = false) : cs ≠ [] := by
  intro hnil
  subst hnil
  have hfc : isWs c = false := h c (by simp)
  rw [hfc] at hw
  exact Bool.noConfusion hw

/-- Every field the splitter produces is non-empty, provided the remaining
input does not end in whitespace and — for `splitAux` — the field under
construction is already non-empty. -/
theorem split_fields_ne_nil (n : Nat) :
    ∀ cs : List Char, cs.length ≤ n →
      (∀ cur : List Char, cur ≠ [] →
        (∀ d, cs.getLast? = some d → isWs d = false) →
        ∀ t ∈ splitAux cur cs, t ≠ []) ∧
      (cs ≠ [] →
        (∀ d, cs.getLast? = some d → isWs d = false) →
        ∀ t ∈ splitSkip cs, t ≠ []) := by
  induction n with
  | zero =>
    intro cs hlen
    have hcs : cs = [] := List.eq_nil_of_length_eq_zero (Nat.le_zero.mp hlen)
    subst hcs
    constructor
    · intro cur hcur _ t ht
      rw [splitAux] at ht
      simp only [List.mem_singleton] at ht
      subst ht
      simpa using hcur
    · intro hne
      exact absurd rfl hne
  | succ n ih =>
    intro cs hlen
    cases cs with
    | nil =>
      constructor
      · intro cur hcur _ t ht
        rw [splitAux] at ht
        simp only [List.mem_singleton] at ht
        subst ht
        simpa using hcur
      · intro hne
        exact absurd rfl hne
    | cons c cs' =>
      have hlen' : cs'.length ≤ n := by
        simpa [List.length_cons] using hlen
      constructor
      · intro cur hcur hlast t ht
        by_cases hw : isWs c = true
        · rw [splitAux, if_pos hw] at ht
          rcases List.mem_cons.mp ht with h1 | h2
          · subst h1
            simpa using hcur
          · exact (ih cs' hlen').2 (tail_ne_nil_of_ws_head hw hlast)
              (lastNotWs_tail hlast) t h2
        · rw [splitAux, if_neg hw] at ht
          exact (ih cs' hlen').1 (c :: cur) (by simp) (lastNotWs_tail hlast) t ht
      · intro _ hlast t ht
        by_cases hw : isWs c = true
        · rw [splitSkip, if_pos hw] at ht
          exact (ih cs' hlen').2 (tail_ne_nil_of_ws_head hw hlast)
            (lastNotWs_tail hlast) t ht
        · rw [splitSkip, if_neg hw] at ht
          exact (ih cs' hlen').1 [c] (by simp) (lastNotWs_tail hlast) t ht

/-- For a non-empty string that neither starts nor ends with whitespace,
every field of `s.split(/\s+/)` is non-empty. -/
theorem jsSplitWs_fields_ne_empty (s : String) (h0 : s.data ≠ [])
    (hh : ∀ c, s.data.head? = some c → isWs c = false)
    (hl : ∀ d, s.data.getLast? = some d → isWs d = false) :
    ∀ t ∈ jsSplitWs s, t ≠ "" := by
  intro t ht
  unfold jsSplitWs at ht
  rcases List.mem_map.mp ht with ⟨l, hm, rfl⟩
  intro hcon
  have hld : l = [] := by
    have hdata : (String.mk l).data = ("" : String).data := by rw [hcon]
    simpa using hdata
  subst hld
  cases hcs : s.data with
  | nil => exact h0 hcs
  | cons c cs' =>
    rw [hcs] at hm
    have hwc : isWs c = false := hh c (by rw [hcs]; rfl)
    rw [splitAux, if_neg (by simp [hwc])] at hm
    have hl2 : ∀ d, (c :: cs').getLast? = some d → isWs d = false := by
      rw [← hcs]
      exact hl
    exact (split_fields_ne_nil cs'.length cs' le_rfl).1 [c] (by simp)
      (lastNotWs_tail hl2) [] hm rfl

/-- For a non-empty string with no boundary whitespace, the displayed word
count coincides with the spec's count of non-empty tokens. -/
theorem wordCount_eq_specWordCount (s : String) (h0 : s.data ≠ [])
    (hh : ∀ c, s.data.head? = some c → isWs c = false)
    (hl : ∀ d, s.data.getLast? = some d → isWs d = false) :
    wordCount s = specWordCount s := by
  unfold wordCount specWordCount
  rw [List.filter_eq_self.mpr]
  intro t ht
  simpa using jsSplitWs_fields_ne_empty s h0 hh hl t ht

/-- Counterexample to C9: for the buffer " hello" the display reports
2 words — `split(/\s+/)` yields an empty leading field — while the string
has a single whitespace-delimited non-empty token. -/
theorem C9_counterexample :
    displayedMetrics (userEdit initState " hello") = some (2, 6) ∧
    specWordCount " hello" = 1 ∧ (2 : Nat) ≠ 1 := by
  refine ⟨rfl, rfl, by decide⟩

/-- Claim C9 as amended: the displayed word count is the field count of
`split(/\s+/)` (an empty boundary field is counted when the text begins or
ends with whitespace) and the character count is the raw length; for text
with no boundary whitespace the word count equals the number of
whitespace-delimited non-empty tokens; "hello world" reports 2 words and
11 characters. -/
theorem C9_word_char_counts (st : PipelineState) :
    (st.extractedText ≠ "" →
      displayedMetrics st =
        some (wordCount st.extractedText, charCount st.extractedText)) ∧
    (st.extractedText.data ≠ [] →
      (∀ c, st.extractedText.data.head? = some c → isWs c = false) →
      (∀ d, st.extractedText.data.getLast? = some d → isWs d = false) →
      wordCount st.extractedText = specWordCount st.extractedText) ∧
    wordCount "hello world" = 2 ∧ charCount "hello world" = 11 := by
  refine ⟨?_, ?_, by decide, by decide⟩
  · intro h
    unfold displayedMetrics
    rw [if_neg h]
  · intro h0 hh hl
    exact wordCount_eq_specWordCount st.extractedText h0 hh hl

/-- Witness for the amended C9 at the buffer "hello world". -/
theorem C9_word_char_counts_witness :
    displayedMetrics (userEdit initState "hello world") = some (2, 11) ∧
    wordCount "hello world" = specWordCount "hello world" :=
  ⟨(C9_word_char_counts (userEdit initState "hello world")).1 (by decide),
   (C9_word_char_counts (userEdit initState "hello world")).2.1 (by decide)
     (by
       intro c hc
       have hc2 : some 'h' = some c := hc
       simp only [Option.some.injEq] at hc2
       subst hc2
       decide)
     (by
       intro d hd
       have hd2 : some 'd' = some d := hd
       simp only [Option.some.injEq] at hd2
       subst hd2
       decide)⟩

end OcrPipeline
